import Mathlib

/-!
Shallow embedding of the bookstore backend subscription and authorization
core (src/middleware/adminAuth.js, src/models/Subscription.js, the
subscription user routes and admin subscription routes, and the role
update route of src/routes/admin.js).

Dates are modelled as integer milliseconds since the epoch; a stored
document is a Lean structure holding the schema fields the lifecycle
operations read or write (the createdAt/updatedAt bookkeeping timestamps
maintained by the pre-save hook are not part of the lifecycle contract
and are omitted).  Each Express handler becomes a pure function from its
inputs and the current database contents to `Except Err` of the new
contents; an HTTP error response becomes an `Err` value keyed by the
distinct response produced by the code.
-/

namespace Bookstore

/-- Error outcomes, one per distinct error response of the handlers:
`invalidArgument` for the 400 responses rejecting malformed input (with
the response message), `conflict` for the 400 response
"You already have an active subscription", `notFound` for 404,
`forbidden` for the 403 of the auth middleware, `selfDemotion` for the
400 response "Cannot demote yourself from admin role". -/
inductive Err where
  | invalidArgument (msg : String)
  | conflict
  | notFound
  | forbidden
  | selfDemotion
deriving Repr, DecidableEq

/-- Subscription document: the fields of subscriptionSchema in
src/models/Subscription.js that the modelled operations touch, with
`id` for the Mongo document id and dates in milliseconds. -/
structure Subscription where
  id : Nat
  user : Nat
  plan : String
  planName : String
  price : Int
  features : List String
  status : String
  startDate : Int
  endDate : Int
  paymentId : Option String
  autoRenew : Bool
deriving Repr, DecidableEq

/-- Authenticated principal as the middleware sees it: a user record
with its id, `role` string and `permissions`.  `none` models a missing,
null or non-array permissions field, the case the middleware tests
before reading the array. -/
structure Principal where
  id : Nat
  role : String
  permissions : Option (List String)
deriving Repr, DecidableEq

/-- Subscription plan row of the fixed table returned by
`Subscription.getPlans`. -/
structure Plan where
  name : String
  price : Int
  duration : Int
  features : List String
deriving Repr, DecidableEq

/-- The fixed plan table of `Subscription.getPlans`
(src/models/Subscription.js): price, duration in days and feature list
per plan key; `none` for a key outside the table. -/
def getPlans : String → Option Plan
  | "basic" => some
      { name := "Basic Plan", price := 99, duration := 30,
        features := ["Access to PDF books", "Basic customer support",
                     "Mobile app access"] }
  | "standard" => some
      { name := "Standard Plan", price := 299, duration := 30,
        features := ["Access to PDF books", "Priority customer support",
                     "Mobile app access", "Offline reading",
                     "Bookmarks & notes"] }
  | "premium" => some
      { name := "Premium Plan", price := 599, duration := 30,
        features := ["Access to PDF books", "Premium customer support",
                     "Mobile app access", "Offline reading",
                     "Bookmarks & notes", "Exclusive content",
                     "Early access to new releases"] }
  | _ => none

/-- Plan keys accepted by the subscribe route guard, which tests
membership of the request plan in the fixed list basic, standard,
premium. -/
def validPlans : List String := ["basic", "standard", "premium"]

/-- Status strings accepted by the admin status route guard, which
tests membership of the request status in the fixed list active,
expired, cancelled, pending. -/
def validStatuses : List String := ["active", "expired", "cancelled", "pending"]

/-- One day in milliseconds, as computed by the handlers
(`24 * 60 * 60 * 1000`). -/
def dayMs : Int := 24 * 60 * 60 * 1000

/-- Database contents relevant to the subscription routes: the stored
subscription documents in insertion order, plus the id counter used for
newly created documents. -/
structure DB where
  nextId : Nat
  subs : List Subscription
deriving Repr, DecidableEq

/-- Virtual `isActive` of subscriptionSchema: status is the string
active and endDate is strictly after the current time. -/
def Subscription.isActive (s : Subscription) (now : Int) : Bool :=
  s.status == "active" && now < s.endDate

/-- Filter used by the subscribe route conflict query: same user,
status active, endDate strictly greater than the current date. -/
def activeFor (now : Int) (uid : Nat) (s : Subscription) : Bool :=
  s.user == uid && s.isActive now

/-- Filter used by the cancel and auto-renew route queries: same user
and status active, with no endDate condition. -/
def isUserActive (uid : Nat) (s : Subscription) : Bool :=
  s.user == uid && s.status == "active"

/-- Replace the first element satisfying `p` by its `f` image, leaving
the rest of the list unchanged: the effect of findOne / findById
followed by a mutation and save. -/
def updateFirst {α : Type} (p : α → Bool) (f : α → α) : List α → List α
  | [] => []
  | x :: xs => if p x then f x :: xs else x :: updateFirst p f xs

/-- POST /subscribe handler (user subscription routes): reject an
unknown plan, reject when an active subscription with endDate in the
future already exists, otherwise create an active document with
endDate = startDate + duration days. -/
def subscribeOp (now : Int) (uid : Nat) (plan : String)
    (paymentId : Option String) (db : DB) : Except Err DB :=
  if !(validPlans.contains plan) then
    .error (.invalidArgument "Invalid subscription plan")
  else
    match getPlans plan with
    | none => .error (.invalidArgument "Invalid subscription plan")
    | some sp =>
      if db.subs.any (activeFor now uid) then .error .conflict
      else
        .ok { nextId := db.nextId + 1,
              subs := db.subs ++
                [{ id := db.nextId, user := uid, plan := plan,
                   planName := sp.name, price := sp.price,
                   features := sp.features, status := "active",
                   startDate := now,
                   endDate := now + sp.duration * dayMs,
                   paymentId := paymentId, autoRenew := true }] }

/-- Mutation applied by the cancel route: status becomes cancelled and
autoRenew is forced off in the same save. -/
def cancelledUpd (s : Subscription) : Subscription :=
  { s with status := "cancelled", autoRenew := false }

/-- PUT /cancel handler: findOne the active document of the principal,
404 when there is none, otherwise set status = cancelled and
autoRenew = false. -/
def cancelOp (uid : Nat) (db : DB) : Except Err DB :=
  match db.subs.find? (isUserActive uid) with
  | none => .error .notFound
  | some _ =>
      .ok { db with subs := updateFirst (isUserActive uid) cancelledUpd db.subs }

/-- PUT /auto-renew handler: findOne the active document of the
principal, 404 when there is none, otherwise set the autoRenew flag. -/
def setAutoRenewOp (uid : Nat) (flag : Bool) (db : DB) : Except Err DB :=
  match db.subs.find? (isUserActive uid) with
  | none => .error .notFound
  | some _ =>
      .ok { db with subs := updateFirst (isUserActive uid) (fun s => { s with autoRenew := flag }) db.subs }

/-- PUT /:id/status handler body (after auth): reject a status outside
the enumeration, 404 when the id is unknown, otherwise overwrite the
status field. -/
def setStatusOp (sid : Nat) (status : String) (db : DB) : Except Err DB :=
  if !(validStatuses.contains status) then
    .error (.invalidArgument "Invalid status")
  else
    match db.subs.find? (fun s => s.id == sid) with
    | none => .error .notFound
    | some _ =>
        .ok { db with subs := updateFirst (fun s => s.id == sid) (fun s => { s with status := status }) db.subs }

/-- PUT /:id/extend handler body (after auth): reject
`!days || days <= 0`, 404 when the id is unknown, otherwise add
days * 24h to endDate, touching nothing else. -/
def extendOp (sid : Nat) (days : Int) (db : DB) : Except Err DB :=
  if days ≤ 0 then .error (.invalidArgument "Invalid number of days")
  else
    match db.subs.find? (fun s => s.id == sid) with
    | none => .error .notFound
    | some _ =>
        .ok { db with subs := updateFirst (fun s => s.id == sid) (fun s => { s with endDate := s.endDate + days * dayMs }) db.subs }

/-- DELETE /:id handler body (after auth): 404 when the id is unknown,
otherwise remove the document. -/
def deleteOp (sid : Nat) (db : DB) : Except Err DB :=
  match db.subs.find? (fun s => s.id == sid) with
  | none => .error .notFound
  | some _ => .ok { db with subs := db.subs.filter (fun s => !(s.id == sid)) }

/-- POST /bulk handler body (after auth): updateMany / deleteMany over
the listed ids for the cancel, activate and delete actions, any other
action rejected. -/
def bulkOp (action : String) (ids : List Nat) (db : DB) : Except Err DB :=
  if action == "cancel" then
    .ok { db with subs := db.subs.map (fun s => if ids.contains s.id then cancelledUpd s else s) }
  else if action == "activate" then
    .ok { db with subs := db.subs.map (fun s => if ids.contains s.id then { s with status := "active" } else s) }
  else if action == "delete" then
    .ok { db with subs := db.subs.filter (fun s => !(ids.contains s.id)) }
  else .error (.invalidArgument "Invalid action")

/-- The adminAuth middleware role gate: the user role must be one of
admin, manager, staff; token verification itself is outside the model,
the principal is already authenticated. -/
def adminAuthCheck (u : Principal) : Bool :=
  ["admin", "manager", "staff"].contains u.role

/-- The requirePermission middleware decision
(src/middleware/adminAuth.js): admins pass unconditionally; with a
missing or non-array permissions field only an admin would pass (dead
branch) and everyone else is denied; otherwise pass exactly when the
permission is in the array. -/
def requirePermission (permission : String) (u : Principal) : Bool :=
  if u.role == "admin" then true
  else
    match u.permissions with
    | none => u.role == "admin"
    | some ps => ps.contains permission

/-- PUT /:id/extend with its adminAuth middleware. -/
def extendRoute (actor : Principal) (sid : Nat) (days : Int) (db : DB) :
    Except Err DB :=
  if !(adminAuthCheck actor) then .error .forbidden
  else extendOp sid days db

/-- PUT /:id/status with its adminAuth middleware. -/
def setStatusRoute (actor : Principal) (sid : Nat) (status : String) (db : DB) :
    Except Err DB :=
  if !(adminAuthCheck actor) then .error .forbidden
  else setStatusOp sid status db

/-- Role strings accepted by the role update route validator, which
requires the request role to be one of user, admin, manager, staff. -/
def validRoles : List String := ["user", "admin", "manager", "staff"]

/-- Default permission list per role, the switch of the role update
route in src/routes/admin.js. -/
def defaultPermissionsForRole (role : String) : List String :=
  if role == "admin" then
    ["view_dashboard", "manage_books", "manage_orders", "manage_users",
     "view_analytics", "manage_settings", "export_data", "manage_permissions"]
  else if role == "manager" then
    ["view_dashboard", "manage_books", "manage_orders", "view_analytics",
     "export_data"]
  else if role == "staff" then
    ["view_dashboard", "manage_books", "manage_orders"]
  else []

/-- PUT /users/:id/role (src/routes/admin.js) with its middleware
chain: adminAuth, requirePermission manage_permissions, the role
validator, the self-demotion guard, then the lookup and update.  The
body permissions argument, when given, replaces the defaults
(`permissions || defaultPermissions`; a given empty array is kept,
being truthy in the source). -/
def updateUserRole (actor : Principal) (targetId : Nat) (newRole : String)
    (perms : Option (List String)) (users : List Principal) :
    Except Err (List Principal) :=
  if !(adminAuthCheck actor) then .error .forbidden
  else if !(requirePermission "manage_permissions" actor) then .error .forbidden
  else if !(validRoles.contains newRole) then .error (.invalidArgument "Invalid role")
  else if actor.id == targetId && actor.role == "admin" && newRole != "admin" then
    .error .selfDemotion
  else
    match users.find? (fun u => u.id == targetId) with
    | none => .error .notFound
    | some _ =>
        .ok (updateFirst (fun u => u.id == targetId) (fun u => { u with role := newRole, permissions := some (perms.getD (defaultPermissionsForRole newRole)) }) users)

/-- Admin principal carrying no permissions array, for the C1 witness. -/
def pAdmin : Principal := { id := 0, role := "admin", permissions := none }

/-- C1: requirePermission allows an admin unconditionally (permissions
empty, missing or null included); a non-admin is allowed exactly when
the tag is in the stored permission array, and a non-admin with a
missing or non-array permission set is denied. -/
theorem c1_requirePermission_spec (p : Principal) (t : String) :
    (p.role = "admin" → requirePermission t p = true)
    ∧ (p.role ≠ "admin" →
        (requirePermission t p = true ↔ ∃ ps, p.permissions = some ps ∧ t ∈ ps))
    ∧ (p.role ≠ "admin" → p.permissions = none → requirePermission t p = false) := by
  unfold requirePermission
  refine ⟨fun h => by simp [h], fun h => ?_, fun h hp => by simp [h, hp]⟩
  simp only [beq_iff_eq, if_neg h]
  cases hp : p.permissions with
  | none => simp [h]
  | some ps => simp [List.elem_iff]

/-- C1 witness: an admin with a missing permissions array passes the
manage_books permission check. -/
theorem c1_witness : requirePermission "manage_books" pAdmin = true :=
  (c1_requirePermission_spec pAdmin "manage_books").1 rfl

/-- Stored document whose status says active but whose endDate has
passed, for the C9 witness. -/
def subStale : Subscription :=
  { id := 0, user := 1, plan := "basic", planName := "Basic Plan",
    price := 99, features := [], status := "active", startDate := 0,
    endDate := 100, paymentId := none, autoRenew := true }

/-- C9: the isActive virtual holds exactly when the stored status is
active and endDate is strictly in the future; in particular it is false
for a record whose status field says active but whose endDate has
passed. -/
theorem c9_isActive_spec (s : Subscription) (now : Int) :
    (s.isActive now = true ↔ s.status = "active" ∧ now < s.endDate)
    ∧ (s.status = "active" → s.endDate ≤ now → s.isActive now = false) := by
  constructor
  · simp [Subscription.isActive]
  · intro h1 h2
    simp [Subscription.isActive, h1]
    omega

/-- C9 witness: a record with status active and endDate 100 is not
effectively active at time 200. -/
theorem c9_witness : subStale.isActive 200 = false :=
  (c9_isActive_spec subStale 200).2 rfl (by decide)

/-- Every plan key accepted by the subscribe route guard is present in
the getPlans table. -/
theorem getPlans_isSome_of_valid {plan : String}
    (h : validPlans.contains plan = true) : ∃ sp, getPlans plan = some sp := by
  have hm : plan ∈ validPlans := by simpa using h
  simp only [validPlans, List.mem_cons, List.not_mem_nil, or_false] at hm
  rcases hm with h | h | h <;> subst h <;> exact ⟨_, rfl⟩

/-- Subscribe with a plan outside the accepted list answers the invalid
plan response before anything else is examined. -/
theorem subscribeOp_invalid_eq (now : Int) (uid : Nat) (pid : Option String)
    (db : DB) {plan : String} (hv : validPlans.contains plan = false) :
    subscribeOp now uid plan pid db =
      .error (.invalidArgument "Invalid subscription plan") := by
  unfold subscribeOp
  rw [hv]
  rfl

/-- Subscribe with a valid plan and an existing active, unexpired
subscription of the principal answers the conflict response. -/
theorem subscribeOp_conflict_eq (now : Int) (uid : Nat) (pid : Option String)
    (db : DB) {plan : String} {sp : Plan} (hc : validPlans.contains plan = true)
    (hsp : getPlans plan = some sp)
    (hA : db.subs.any (activeFor now uid) = true) :
    subscribeOp now uid plan pid db = .error .conflict := by
  unfold subscribeOp
  rw [hc, hsp, hA]
  rfl

/-- Subscribe with a valid plan and no active, unexpired subscription
of the principal creates the new active document: endDate is startDate
plus the plan duration in days, status is active, autoRenew defaults to
true. -/
theorem subscribeOp_ok_eq (now : Int) (uid : Nat) (pid : Option String)
    (db : DB) {plan : String} {sp : Plan} (hc : validPlans.contains plan = true)
    (hsp : getPlans plan = some sp)
    (hA : db.subs.any (activeFor now uid) = false) :
    subscribeOp now uid plan pid db =
      .ok { nextId := db.nextId + 1,
            subs := db.subs ++
              [{ id := db.nextId, user := uid, plan := plan,
                 planName := sp.name, price := sp.price,
                 features := sp.features, status := "active",
                 startDate := now, endDate := now + sp.duration * dayMs,
                 paymentId := pid, autoRenew := true }] } := by
  unfold subscribeOp
  rw [hc, hsp, hA]
  rfl

/-- Database holding one active, unexpired subscription of user 1, for
the C2 counterexample. -/
def dbC2 : DB :=
  { nextId := 1,
    subs := [{ id := 0, user := 1, plan := "basic", planName := "Basic Plan",
               price := 99, features := [], status := "active", startDate := 0,
               endDate := 200, paymentId := none, autoRenew := true }] }

/-- C2 counterexample: at time 100, user 1 holds an active subscription
with endDate 200 in the future, yet subscribing to the unknown plan
gold fails with the invalid plan response, not with Conflict (the plan
validation fires first), so failing with Conflict is not equivalent to
the presence of an active unexpired subscription. -/
theorem c2_counterexample :
    dbC2.subs.any (activeFor 100 1) = true
    ∧ subscribeOp 100 1 "gold" none dbC2 =
        .error (.invalidArgument "Invalid subscription plan")
    ∧ ¬ (subscribeOp 100 1 "gold" none dbC2 = .error .conflict ↔
          dbC2.subs.any (activeFor 100 1) = true) := by
  refine ⟨by decide, rfl, fun h => ?_⟩
  have h2 := h.mpr (by decide)
  rw [show subscribeOp 100 1 "gold" none dbC2 =
        .error (.invalidArgument "Invalid subscription plan") from rfl] at h2
  simp at h2

/-- C2 amended: provided the requested plan is one of basic, standard,
premium, subscribe fails with Conflict exactly when a subscription of
the principal with status active and endDate strictly in the future
exists; without such a subscription it succeeds, in particular when
every subscription of the principal has endDate in the past, whatever
status those records store. -/
theorem c2_subscribe_conflict (now : Int) (uid : Nat) (plan : String)
    (pid : Option String) (db : DB)
    (hplan : validPlans.contains plan = true) :
    (subscribeOp now uid plan pid db = .error .conflict ↔
      db.subs.any (activeFor now uid) = true)
    ∧ (db.subs.any (activeFor now uid) = false →
        ∃ db2, subscribeOp now uid plan pid db = .ok db2)
    ∧ ((∀ s ∈ db.subs, s.user = uid → s.endDate ≤ now) →
        ∃ db2, subscribeOp now uid plan pid db = .ok db2) := by
  obtain ⟨sp, hsp⟩ := getPlans_isSome_of_valid hplan
  have hpast : (∀ s ∈ db.subs, s.user = uid → s.endDate ≤ now) →
      db.subs.any (activeFor now uid) = false := by
    intro h3
    rw [List.any_eq_false]
    intro s hs
    simp only [activeFor, Subscription.isActive, Bool.and_eq_true, beq_iff_eq,
      decide_eq_true_eq, not_and]
    intro hu _ hlt
    exact absurd (h3 s hs hu) (by omega)
  cases hA : db.subs.any (activeFor now uid) with
  | true =>
      refine ⟨⟨fun _ => rfl, fun _ => subscribeOp_conflict_eq now uid pid db hplan hsp hA⟩,
        by simp, fun h3 => ?_⟩
      rw [hpast h3] at hA
      simp at hA
  | false =>
      refine ⟨⟨fun h => ?_, by simp⟩, fun _ => ?_, fun _ => ?_⟩
      · rw [subscribeOp_ok_eq now uid pid db hplan hsp hA] at h
        simp at h
      all_goals exact ⟨_, subscribeOp_ok_eq now uid pid db hplan hsp hA⟩

/-- C2 witness for the amended statement: with the valid plan basic and
an existing active unexpired subscription, subscribe does fail with
Conflict. -/
theorem c2_witness : subscribeOp 100 1 "basic" none dbC2 = .error .conflict :=
  (c2_subscribe_conflict 100 1 "basic" none dbC2 (by decide)).1.mpr (by decide)

/-- C10: each of the three validated operations raises InvalidArgument
exactly on its malformed input: subscribe exactly when the plan is
outside basic, standard, premium; extend exactly when days is not
positive; setStatus exactly when the target status is outside the
enumeration. -/
theorem c10_invalidArgument_spec (now : Int) (uid : Nat) (plan : String)
    (pid : Option String) (days : Int) (sid : Nat) (status : String) (db : DB) :
    ((∃ m, subscribeOp now uid plan pid db = .error (.invalidArgument m)) ↔
      validPlans.contains plan = false)
    ∧ ((∃ m, extendOp sid days db = .error (.invalidArgument m)) ↔ days ≤ 0)
    ∧ ((∃ m, setStatusOp sid status db = .error (.invalidArgument m)) ↔
      validStatuses.contains status = false) := by
  refine ⟨?_, ?_, ?_⟩
  · by_cases hv : validPlans.contains plan = true
    · rw [hv]
      obtain ⟨sp, hsp⟩ := getPlans_isSome_of_valid hv
      simp only [Bool.true_eq_false, iff_false, not_exists]
      intro m h
      cases hA : db.subs.any (activeFor now uid) with
      | true => rw [subscribeOp_conflict_eq now uid pid db hv hsp hA] at h; simp at h
      | false => rw [subscribeOp_ok_eq now uid pid db hv hsp hA] at h; simp at h
    · rw [Bool.not_eq_true] at hv
      rw [hv]
      exact iff_of_true ⟨_, subscribeOp_invalid_eq now uid pid db hv⟩ rfl
  · by_cases hd : days ≤ 0
    · refine iff_of_true ⟨"Invalid number of days", ?_⟩ hd
      unfold extendOp
      rw [if_pos hd]
    · simp only [hd, iff_false, not_exists]
      intro m h
      unfold extendOp at h
      rw [if_neg hd] at h
      cases hf : db.subs.find? (fun s => s.id == sid) <;> rw [hf] at h <;> simp at h
  · by_cases hv : validStatuses.contains status = true
    · rw [hv]
      simp only [Bool.true_eq_false, iff_false, not_exists]
      intro m h
      unfold setStatusOp at h
      rw [hv] at h
      cases hf : db.subs.find? (fun s => s.id == sid) <;> rw [hf] at h <;> simp at h
    · rw [Bool.not_eq_true] at hv
      rw [hv]
      refine iff_of_true ⟨"Invalid status", ?_⟩ rfl
      unfold setStatusOp
      rw [hv]
      rfl

/-- C10 witness: extend by 0 days on the sample database raises
InvalidArgument, through the extend clause of the specification. -/
theorem c10_witness : (0 : Int) ≤ 0 :=
  (c10_invalidArgument_spec 0 1 "basic" none 0 0 "active" dbC2).2.1.mp
    ⟨"Invalid number of days", rfl⟩

/-- Behaviour of updateFirst at a successful find?: the list splits as
an unmatched front segment, the found element, and an untouched tail, and
updateFirst maps exactly the found element. -/
theorem find?_updateFirst_split {α : Type} (p : α → Bool) (f : α → α) :
    ∀ (l : List α) (a : α), l.find? p = some a →
      ∃ pre post, l = pre ++ a :: post ∧ (∀ x ∈ pre, p x = false) ∧
        updateFirst p f l = pre ++ f a :: post := by
  intro l
  induction l with
  | nil => intro a h; simp at h
  | cons x xs ih =>
    intro a h
    cases hx : p x with
    | true =>
        rw [List.find?_cons_of_pos _ hx] at h
        obtain rfl : x = a := by injection h
        exact ⟨[], xs, rfl, by simp, by simp [updateFirst, hx]⟩
    | false =>
        rw [List.find?_cons_of_neg _ (by simp [hx])] at h
        obtain ⟨pre, post, hl, hpre, hupd⟩ := ih a h
        refine ⟨x :: pre, post, by simp [hl], ?_, ?_⟩
        · intro y hy
          rcases List.mem_cons.mp hy with rfl | hy2
          · exact hx
          · exact hpre y hy2
        · simp [updateFirst, hx, hupd]

/-- C7: cancel with an active record of the principal rewrites exactly
that record, setting status cancelled and autoRenew false in the same
save and leaving every other field and every other record untouched;
without an active record it answers NotFound; and once the record has
left the active state, a repeated cancel answers NotFound provided no
other active record of the principal remains. -/
theorem c7_cancel_spec (uid : Nat) (db : DB) :
    (db.subs.find? (isUserActive uid) = none → cancelOp uid db = .error .notFound)
    ∧ (∀ sub, db.subs.find? (isUserActive uid) = some sub →
        ∃ pre post,
          db.subs = pre ++ sub :: post
          ∧ (∀ x ∈ pre, isUserActive uid x = false)
          ∧ cancelOp uid db = .ok { db with subs := pre ++ cancelledUpd sub :: post }
          ∧ (cancelledUpd sub).status = "cancelled"
          ∧ (cancelledUpd sub).autoRenew = false
          ∧ { cancelledUpd sub with status := sub.status, autoRenew := sub.autoRenew } = sub
          ∧ ((∀ x ∈ post, isUserActive uid x = false) →
              cancelOp uid { db with subs := pre ++ cancelledUpd sub :: post } =
                .error .notFound)) := by
  constructor
  · intro h
    unfold cancelOp
    rw [h]
  · intro sub h
    obtain ⟨pre, post, hl, hpre, hupd⟩ :=
      find?_updateFirst_split (isUserActive uid) cancelledUpd db.subs sub h
    refine ⟨pre, post, hl, hpre, ?_, rfl, rfl, rfl, ?_⟩
    · unfold cancelOp
      rw [h, hupd]
    · intro hpost
      have hnone : (pre ++ cancelledUpd sub :: post).find? (isUserActive uid) = none := by
        rw [List.find?_eq_none]
        intro x hx
        rcases List.mem_append.mp hx with hx1 | hx2
        · simp [hpre x hx1]
        · rcases List.mem_cons.mp hx2 with rfl | hx3
          · simp [isUserActive, cancelledUpd]
          · simp [hpost x hx3]
      unfold cancelOp
      rw [show ({ db with subs := pre ++ cancelledUpd sub :: post } : DB).subs =
            pre ++ cancelledUpd sub :: post from rfl, hnone]

/-- Database holding the single active subscription of user 1, for the
C7 witness. -/
def dbC7 : DB := { nextId := 1, subs := [subStale] }

/-- C7 witness: user 2 has no active subscription in dbC7, so cancel
answers NotFound. -/
theorem c7_witness : cancelOp 2 dbC7 = .error .notFound :=
  (c7_cancel_spec 2 dbC7).1 (by decide)

/-- C8: extend by a positive number of days rewrites exactly the
addressed record, adding days times 24h to endDate; no hypothesis on
the stored status is needed, the status field is unchanged, restoring
the old endDate restores the whole record (no other field changed),
and every other record is untouched. -/
theorem c8_extend_spec (sid : Nat) (days : Int) (db : DB) (sub : Subscription)
    (hd : 0 < days) (hfind : db.subs.find? (fun s => s.id == sid) = some sub) :
    ∃ pre post,
      db.subs = pre ++ sub :: post
      ∧ extendOp sid days db =
          .ok { db with subs := pre ++ { sub with endDate := sub.endDate + days * dayMs } :: post }
      ∧ ({ sub with endDate := sub.endDate + days * dayMs } : Subscription).status = sub.status
      ∧ { ({ sub with endDate := sub.endDate + days * dayMs } : Subscription) with
            endDate := sub.endDate } = sub := by
  obtain ⟨pre, post, hl, hpre, hupd⟩ :=
    find?_updateFirst_split (fun s => s.id == sid)
      (fun s => { s with endDate := s.endDate + days * dayMs }) db.subs sub hfind
  refine ⟨pre, post, hl, ?_, rfl, rfl⟩
  unfold extendOp
  rw [if_neg (by omega), hfind, hupd]

/-- C8 witness: extending the stale record of user 1 by 10 days moves
its endDate from 100 to 100 plus ten days of milliseconds. -/
theorem c8_witness :
    extendOp 0 10 dbC7 =
      .ok { dbC7 with subs := [{ subStale with endDate := 100 + 10 * dayMs }] } := by
  obtain ⟨pre, post, hl, heq, -, -⟩ := c8_extend_spec 0 10 dbC7 subStale (by decide) rfl
  rcases pre with - | ⟨y, ys⟩
  · obtain rfl : post = [] := by simpa [dbC7] using hl
    simpa using heq
  · exfalso
    simp only [dbC7, List.cons_append] at hl
    have h2 := (List.cons.injEq _ _ _ _ ▸ hl : subStale = y ∧ [] = ys ++ subStale :: post)
    exact absurd h2.2.symm (by simp)

/-- Manager principal holding the manage_permissions tag, for the C4
and C5 counterexamples. -/
def pManager : Principal :=
  { id := 2, role := "manager", permissions := some ["manage_permissions"] }

/-- Customer principal, outside the admin-panel roles. -/
def pCustomer : Principal := { id := 3, role := "user", permissions := some [] }

/-- C4 counterexample: a manager is not an admin, yet the extend route
accepts the request and modifies the record (adminAuth lets admin,
manager and staff through alike), so extend is not admin-only. -/
theorem c4_counterexample :
    pManager.role ≠ "admin"
    ∧ extendRoute pManager 0 10 dbC7 =
        .ok { dbC7 with subs := [{ subStale with endDate := 100 + 10 * dayMs }] } := by
  exact ⟨by decide, rfl⟩

/-- C4 amended: extend and setStatus are admin-panel-only: a principal
whose role is outside admin, manager, staff is denied with Forbidden by
the adminAuth middleware on both routes, and no record is modified. -/
theorem c4_panel_only (actor : Principal) (sid : Nat) (days : Int)
    (status : String) (db : DB) (h : adminAuthCheck actor = false) :
    extendRoute actor sid days db = .error .forbidden
    ∧ setStatusRoute actor sid status db = .error .forbidden := by
  constructor
  · unfold extendRoute
    rw [h]
    rfl
  · unfold setStatusRoute
    rw [h]
    rfl

/-- C4 witness: a customer is denied with Forbidden on both admin
routes. -/
theorem c4_witness :
    extendRoute pCustomer 0 10 dbC7 = .error .forbidden
    ∧ setStatusRoute pCustomer 0 "expired" dbC7 = .error .forbidden :=
  c4_panel_only pCustomer 0 10 "expired" dbC7 (by decide)

/-- User list for the role-change counterexample and witness. -/
def usersList : List Principal :=
  [{ id := 1, role := "user", permissions := some [] }, pManager]

/-- C5 counterexample: a manager holding manage_permissions changes the
role of another principal successfully, so role changes are not
reserved to admins. -/
theorem c5_counterexample :
    pManager.role ≠ "admin"
    ∧ pManager.id ≠ 1
    ∧ updateUserRole pManager 1 "staff" none usersList =
        .ok [{ id := 1, role := "staff",
               permissions := some ["view_dashboard", "manage_books", "manage_orders"] },
             pManager] := by
  exact ⟨by decide, by decide, rfl⟩

/-- C5 amended: the role-change route denies with Forbidden any actor
that fails the adminAuth role gate or fails the manage_permissions
check (admins pass it implicitly); an actor passing both, admin or
not, reaches the update. -/
theorem c5_role_change_guard (actor : Principal) (targetId : Nat)
    (newRole : String) (perms : Option (List String)) (users : List Principal)
    (h : adminAuthCheck actor = false ∨
      requirePermission "manage_permissions" actor = false) :
    updateUserRole actor targetId newRole perms users = .error .forbidden := by
  unfold updateUserRole
  rcases h with h | h
  · rw [h]
    rfl
  · cases ha : adminAuthCheck actor
    · rfl
    · rw [h]
      rfl

/-- C5 witness: a customer, failing the adminAuth gate, is denied. -/
theorem c5_witness : updateUserRole pCustomer 1 "staff" none usersList = .error .forbidden :=
  c5_role_change_guard pCustomer 1 "staff" none usersList (Or.inl (by decide))

/-- C6: an admin targeting themself is denied for every new role other
than admin (by the self-demotion guard, or by the role validator when
the role string is unknown), and changing their own role to admin goes
through whenever their record is found. -/
theorem c6_self_demotion_spec (actor : Principal) (newRole : String)
    (perms : Option (List String)) (users : List Principal)
    (hadmin : actor.role = "admin") :
    (newRole ≠ "admin" →
      ∃ e, updateUserRole actor actor.id newRole perms users = .error e)
    ∧ (∀ u, users.find? (fun x => x.id == actor.id) = some u →
        ∃ users2, updateUserRole actor actor.id "admin" perms users = .ok users2) := by
  have h1 : adminAuthCheck actor = true := by simp [adminAuthCheck, hadmin]
  have h2 : requirePermission "manage_permissions" actor = true := by
    simp [requirePermission, hadmin]
  constructor
  · intro hne
    by_cases hval : validRoles.contains newRole = true
    · refine ⟨.selfDemotion, ?_⟩
      have hcond : (actor.id == actor.id && actor.role == "admin" && newRole != "admin") = true := by
        simp [hadmin, bne_iff_ne, hne]
      unfold updateUserRole
      rw [h1, h2, hval, hcond]
      rfl
    · rw [Bool.not_eq_true] at hval
      refine ⟨.invalidArgument "Invalid role", ?_⟩
      unfold updateUserRole
      rw [h1, h2, hval]
      rfl
  · intro u hu
    refine ⟨updateFirst (fun x => x.id == actor.id) (fun x => { x with role := "admin", permissions := some (perms.getD (defaultPermissionsForRole "admin")) }) users, ?_⟩
    have hcond : (actor.id == actor.id && actor.role == "admin" && ("admin" != "admin")) = false := by
      simp
    unfold updateUserRole
    rw [h1, h2, hcond, hu]
    rfl

/-- C6 witness: the lone admin may keep their admin role but not hand
themself the manager role. -/
theorem c6_witness :
    (∃ e, updateUserRole pAdmin pAdmin.id "manager" none [pAdmin] = .error e)
    ∧ (∃ users2, updateUserRole pAdmin pAdmin.id "admin" none [pAdmin] = .ok users2) :=
  ⟨(c6_self_demotion_spec pAdmin "manager" none [pAdmin] rfl).1 (by decide),
   (c6_self_demotion_spec pAdmin "admin" none [pAdmin] rfl).2 pAdmin (by decide)⟩

/-- Duration consistency of one stored document: its plan key is in
the plan table and its endDate is startDate plus the plan duration in
days. -/
def durOK (s : Subscription) : Bool :=
  match getPlans s.plan with
  | none => false
  | some sp => s.endDate == s.startDate + sp.duration * dayMs

/-- First half of the claimed invariant: every stored document is
duration consistent. -/
def DurInv (db : DB) : Prop := ∀ s ∈ db.subs, durOK s = true

/-- Second half of the claimed invariant: at most one stored document
per principal is simultaneously in status active with endDate in the
future. -/
def UniqInv (now : Int) (db : DB) : Prop :=
  ∀ uid, db.subs.countP (activeFor now uid) ≤ 1

/-- Pointwise monotone predicates give monotone counts. -/
theorem countP_le_countP {α : Type} (p q : α → Bool)
    (h : ∀ a, p a = true → q a = true) :
    ∀ l : List α, l.countP p ≤ l.countP q := by
  intro l
  exact List.countP_mono_left (fun a _ ha => h a ha)

/-- Every member of an updateFirst image is an old member or the image
of an old member. -/
theorem mem_updateFirst {α : Type} (p : α → Bool) (f : α → α) :
    ∀ (l : List α) (x : α), x ∈ updateFirst p f l →
      x ∈ l ∨ ∃ y, y ∈ l ∧ x = f y := by
  intro l
  induction l with
  | nil => intro x hx; simp [updateFirst] at hx
  | cons a as ih =>
    intro x hx
    by_cases hpa : p a = true
    · simp only [updateFirst, if_pos hpa] at hx
      rcases List.mem_cons.mp hx with rfl | hx2
      · exact Or.inr ⟨a, List.mem_cons_self a as, rfl⟩
      · exact Or.inl (List.mem_cons_of_mem _ hx2)
    · simp only [updateFirst, if_neg hpa] at hx
      rcases List.mem_cons.mp hx with rfl | hx2
      · exact Or.inl (List.mem_cons_self x as)
      · rcases ih x hx2 with h | ⟨y, hy, rfl⟩
        · exact Or.inl (List.mem_cons_of_mem _ h)
        · exact Or.inr ⟨y, List.mem_cons_of_mem _ hy, rfl⟩

/-- Rewriting one element with a function that never turns a
non-matching element of `p2` into a matching one does not raise the
`p2` count. -/
theorem countP_updateFirst_le {α : Type} (p p2 : α → Bool) (f : α → α)
    (hf : ∀ s, p2 (f s) = true → p2 s = true) :
    ∀ l : List α, (updateFirst p f l).countP p2 ≤ l.countP p2 := by
  intro l
  induction l with
  | nil => simp [updateFirst]
  | cons a as ih =>
    by_cases hpa : p a = true
    · simp only [updateFirst, if_pos hpa, List.countP_cons]
      have hone : (if p2 (f a) = true then 1 else 0) ≤ (if p2 a = true then 1 else 0) := by
        by_cases h : p2 (f a) = true
        · simp [h, hf a h]
        · simp [h]
      exact Nat.add_le_add_left hone _
    · simp only [updateFirst, if_neg hpa, List.countP_cons]
      exact Nat.add_le_add_right ih _

/-- Mapping a function that never turns a non-matching element into a
matching one does not raise the count. -/
theorem countP_map_le {α : Type} (p2 : α → Bool) (g : α → α)
    (hf : ∀ s, p2 (g s) = true → p2 s = true) (l : List α) :
    (l.map g).countP p2 ≤ l.countP p2 := by
  rw [List.countP_map]
  exact List.countP_mono_left (fun a _ ha => hf a ha)

/-- Inversion of a successful subscribe: the plan is in the table, the
principal had no active unexpired document, and the store grows by
exactly the new active document with endDate = startDate + duration
days. -/
theorem subscribeOp_ok_inv {now : Int} {uid : Nat} {plan : String}
    {pid : Option String} {db db2 : DB}
    (h : subscribeOp now uid plan pid db = .ok db2) :
    ∃ sp, getPlans plan = some sp
      ∧ db.subs.any (activeFor now uid) = false
      ∧ db2.subs = db.subs ++
          [{ id := db.nextId, user := uid, plan := plan, planName := sp.name,
             price := sp.price, features := sp.features, status := "active",
             startDate := now, endDate := now + sp.duration * dayMs,
             paymentId := pid, autoRenew := true }] := by
  unfold subscribeOp at h
  split at h
  · simp at h
  · split at h
    · simp at h
    · rename_i sp hsp
      split at h
      · simp at h
      · rename_i hA
        rw [Bool.not_eq_true] at hA
        obtain rfl := (Except.ok.injEq _ _ ▸ h : _ = db2).symm
        exact ⟨sp, hsp, hA, rfl⟩

/-- Inversion of a successful cancel: the store is the old one with its
first active document of the principal cancelled. -/
theorem cancelOp_ok_inv {uid : Nat} {db db2 : DB}
    (h : cancelOp uid db = .ok db2) :
    db2.subs = updateFirst (isUserActive uid) cancelledUpd db.subs := by
  unfold cancelOp at h
  split at h
  · simp at h
  · obtain rfl := (Except.ok.injEq _ _ ▸ h : _ = db2).symm
    rfl

/-- Inversion of a successful auto-renew update: the store is the old
one with the autoRenew flag of the first active document of the
principal rewritten. -/
theorem setAutoRenewOp_ok_inv {uid : Nat} {flag : Bool} {db db2 : DB}
    (h : setAutoRenewOp uid flag db = .ok db2) :
    db2.subs = updateFirst (isUserActive uid)
      (fun s => { s with autoRenew := flag }) db.subs := by
  unfold setAutoRenewOp at h
  split at h
  · simp at h
  · obtain rfl := (Except.ok.injEq _ _ ▸ h : _ = db2).symm
    rfl

/-- Inversion of a successful bulk action other than activate: the
store is mapped by the bulk cancel rewrite or filtered by the bulk
delete. -/
theorem bulkOp_ok_inv {action : String} {ids : List Nat} {db db2 : DB}
    (h : bulkOp action ids db = .ok db2) (hne : action ≠ "activate") :
    db2.subs = db.subs.map (fun s => if ids.contains s.id then cancelledUpd s else s)
    ∨ db2.subs = db.subs.filter (fun s => !(ids.contains s.id)) := by
  unfold bulkOp at h
  split at h
  · obtain rfl := (Except.ok.injEq _ _ ▸ h : _ = db2).symm
    exact Or.inl rfl
  · split at h
    · rename_i hact
      exact absurd (by simpa using hact) hne
    · split at h
      · obtain rfl := (Except.ok.injEq _ _ ▸ h : _ = db2).symm
        exact Or.inr rfl
      · simp at h

/-- Count over a singleton is at most one. -/
theorem countP_singleton_le_one {α : Type} (p : α → Bool) (x : α) :
    List.countP p [x] ≤ 1 := by
  by_cases h : p x = true <;> simp [List.countP_cons, h]

/-- Time passing preserves the uniqueness half of the invariant: a
document unexpired later was unexpired before. -/
theorem uniq_mono {t t2 : Int} (hle : t ≤ t2) {db : DB} (h : UniqInv t db) :
    UniqInv t2 db := by
  intro uid
  refine le_trans (countP_le_countP _ _ ?_ db.subs) (h uid)
  intro s hs
  simp only [activeFor, Subscription.isActive, Bool.and_eq_true, beq_iff_eq,
    decide_eq_true_eq] at hs ⊢
  exact ⟨hs.1, hs.2.1, by omega⟩

/-- Subscribe preserves both halves of the invariant. -/
theorem inv_subscribe {t : Int} {uid : Nat} {plan : String}
    {pid : Option String} {db db2 : DB}
    (h : subscribeOp t uid plan pid db = .ok db2)
    (ih : DurInv db ∧ UniqInv t db) : DurInv db2 ∧ UniqInv t db2 := by
  obtain ⟨sp, hsp, hA, hsubs⟩ := subscribeOp_ok_inv h
  constructor
  · intro s hs
    rw [hsubs] at hs
    rcases List.mem_append.mp hs with hs1 | hs2
    · exact ih.1 s hs1
    · obtain rfl := List.mem_singleton.mp hs2
      simp [durOK, hsp]
  · intro uid2
    rw [hsubs, List.countP_append]
    by_cases he : uid2 = uid
    · subst he
      have h0 : db.subs.countP (activeFor t uid2) = 0 :=
        List.countP_eq_zero.mpr (List.any_eq_false.mp hA)
      rw [h0]
      simpa using countP_singleton_le_one (activeFor t uid2) _
    · have h1 : List.countP (activeFor t uid2)
          [{ id := db.nextId, user := uid, plan := plan, planName := sp.name,
             price := sp.price, features := sp.features, status := "active",
             startDate := t, endDate := t + sp.duration * dayMs,
             paymentId := pid, autoRenew := true }] = 0 := by
        have hb : (uid == uid2) = false := beq_eq_false_iff_ne.mpr (fun hh => he hh.symm)
        simp [List.countP_cons, activeFor, hb]
      rw [h1]
      simpa using ih.2 uid2

/-- Cancel preserves both halves of the invariant: the rewritten
document keeps its dates and leaves the active state. -/
theorem inv_cancel {t : Int} {uid : Nat} {db db2 : DB}
    (h : cancelOp uid db = .ok db2)
    (ih : DurInv db ∧ UniqInv t db) : DurInv db2 ∧ UniqInv t db2 := by
  have hsubs := cancelOp_ok_inv h
  constructor
  · intro s hs
    rw [hsubs] at hs
    rcases mem_updateFirst _ _ _ s hs with h1 | ⟨y, hy, rfl⟩
    · exact ih.1 s h1
    · exact ih.1 y hy
  · intro uid2
    rw [hsubs]
    refine le_trans (countP_updateFirst_le _ _ _ ?_ db.subs) (ih.2 uid2)
    intro s hsf
    exfalso
    simp [activeFor, Subscription.isActive, cancelledUpd] at hsf

/-- Auto-renew preserves both halves of the invariant: the rewritten
document differs only in the autoRenew flag. -/
theorem inv_autoRenew {t : Int} {uid : Nat} {flag : Bool} {db db2 : DB}
    (h : setAutoRenewOp uid flag db = .ok db2)
    (ih : DurInv db ∧ UniqInv t db) : DurInv db2 ∧ UniqInv t db2 := by
  have hsubs := setAutoRenewOp_ok_inv h
  constructor
  · intro s hs
    rw [hsubs] at hs
    rcases mem_updateFirst _ _ _ s hs with h1 | ⟨y, hy, rfl⟩
    · exact ih.1 s h1
    · exact ih.1 y hy
  · intro uid2
    rw [hsubs]
    refine le_trans (countP_updateFirst_le _ _ _ ?_ db.subs) (ih.2 uid2)
    intro s hsf
    exact hsf

/-- Bulk cancel and bulk delete preserve both halves of the
invariant. -/
theorem inv_bulk {t : Int} {action : String} {ids : List Nat} {db db2 : DB}
    (h : bulkOp action ids db = .ok db2) (hne : action ≠ "activate")
    (ih : DurInv db ∧ UniqInv t db) : DurInv db2 ∧ UniqInv t db2 := by
  rcases bulkOp_ok_inv h hne with hsubs | hsubs
  · constructor
    · intro s hs
      rw [hsubs] at hs
      obtain ⟨y, hy, rfl⟩ := List.mem_map.mp hs
      by_cases hin : ids.contains y.id = true
      · rw [if_pos hin]
        exact ih.1 y hy
      · rw [if_neg hin]
        exact ih.1 y hy
    · intro uid2
      rw [hsubs]
      refine le_trans (countP_map_le _ _ ?_ db.subs) (ih.2 uid2)
      intro s hsf
      by_cases hin : ids.contains s.id = true
      · rw [if_pos hin] at hsf
        exfalso
        simp [activeFor, Subscription.isActive, cancelledUpd] at hsf
      · rwa [if_neg hin] at hsf
  · constructor
    · intro s hs
      rw [hsubs] at hs
      exact ih.1 s (List.mem_of_mem_filter hs)
    · intro uid2
      rw [hsubs]
      exact le_trans ((List.filter_sublist _).countP_le _) (ih.2 uid2)

/-- States reachable through all operations the claim lists: subscribe,
cancel, setAutoRenew, extend, setStatus and the bulk actions, starting
from the empty store, with time moving forward between operations. -/
inductive ReachableAll : Int → DB → Prop where
  | init (t : Int) : ReachableAll t { nextId := 0, subs := [] }
  | tick {t : Int} {db : DB} (t2 : Int) :
      ReachableAll t db → t ≤ t2 → ReachableAll t2 db
  | subscribe {t : Int} {db db2 : DB} {uid : Nat} {plan : String}
      {pid : Option String} : ReachableAll t db →
      subscribeOp t uid plan pid db = .ok db2 → ReachableAll t db2
  | cancel {t : Int} {db db2 : DB} {uid : Nat} : ReachableAll t db →
      cancelOp uid db = .ok db2 → ReachableAll t db2
  | autoRenew {t : Int} {db db2 : DB} {uid : Nat} {flag : Bool} :
      ReachableAll t db →
      setAutoRenewOp uid flag db = .ok db2 → ReachableAll t db2
  | extend {t : Int} {db db2 : DB} {sid : Nat} {days : Int} :
      ReachableAll t db →
      extendOp sid days db = .ok db2 → ReachableAll t db2
  | setStatus {t : Int} {db db2 : DB} {sid : Nat} {status : String} :
      ReachableAll t db →
      setStatusOp sid status db = .ok db2 → ReachableAll t db2
  | bulk {t : Int} {db db2 : DB} {action : String} {ids : List Nat} :
      ReachableAll t db →
      bulkOp action ids db = .ok db2 → ReachableAll t db2

/-- States reachable through the guarded operations only: subscribe,
cancel, setAutoRenew and the bulk actions other than activate —
excluding extend, setStatus and bulk activate. -/
inductive ReachableGuarded : Int → DB → Prop where
  | init (t : Int) : ReachableGuarded t { nextId := 0, subs := [] }
  | tick {t : Int} {db : DB} (t2 : Int) :
      ReachableGuarded t db → t ≤ t2 → ReachableGuarded t2 db
  | subscribe {t : Int} {db db2 : DB} {uid : Nat} {plan : String}
      {pid : Option String} : ReachableGuarded t db →
      subscribeOp t uid plan pid db = .ok db2 → ReachableGuarded t db2
  | cancel {t : Int} {db db2 : DB} {uid : Nat} : ReachableGuarded t db →
      cancelOp uid db = .ok db2 → ReachableGuarded t db2
  | autoRenew {t : Int} {db db2 : DB} {uid : Nat} {flag : Bool} :
      ReachableGuarded t db →
      setAutoRenewOp uid flag db = .ok db2 → ReachableGuarded t db2
  | bulk {t : Int} {db db2 : DB} {action : String} {ids : List Nat} :
      ReachableGuarded t db →
      bulkOp action ids db = .ok db2 → action ≠ "activate" →
      ReachableGuarded t db2

/-- The document created by subscribing user 1 to the basic plan at
time 0: endDate is 30 days of milliseconds. -/
def subC3 : Subscription :=
  { id := 0, user := 1, plan := "basic", planName := "Basic Plan", price := 99,
    features := ["Access to PDF books", "Basic customer support",
                 "Mobile app access"],
    status := "active", startDate := 0, endDate := 2592000000,
    paymentId := none, autoRenew := true }

/-- Store after that subscribe. -/
def dbC3a : DB := { nextId := 1, subs := [subC3] }

/-- Store after an admin extend of 10 days on the same document:
endDate moved to 40 days while startDate and plan stayed. -/
def dbC3b : DB := { nextId := 1, subs := [{ subC3 with endDate := 3456000000 }] }

/-- C3 counterexample: a state reached by subscribe followed by extend
violates the endDate = startDate + plan.duration half of the claimed
invariant, so the invariant does not hold in every state reachable
through the listed operations. -/
theorem c3_counterexample :
    ReachableAll 0 dbC3b ∧ ¬ (DurInv dbC3b ∧ UniqInv 0 dbC3b) := by
  constructor
  · exact ReachableAll.extend
      (ReachableAll.subscribe (ReachableAll.init 0)
        (show subscribeOp 0 1 "basic" none { nextId := 0, subs := [] } =
          .ok dbC3a from rfl))
      (show extendOp 0 10 dbC3a = .ok dbC3b from rfl)
  · intro hinv
    have h := hinv.1 { subC3 with endDate := 3456000000 } (by simp [dbC3b])
    exact absurd h (by decide)

/-- C3 amended: in every state reachable through subscribe, cancel,
setAutoRenew and the bulk actions other than activate (extend,
setStatus and bulk activate excluded, as the counterexample forces),
every document satisfies endDate = startDate + plan.duration days and
at most one document per principal is simultaneously in status active
with endDate in the future. -/
theorem c3_guarded_invariants (t : Int) (db : DB)
    (h : ReachableGuarded t db) : DurInv db ∧ UniqInv t db := by
  induction h with
  | init t0 =>
      constructor
      · intro s hs
        simp at hs
      · intro uid
        simp [List.countP_nil]
  | tick t2 hr hle ih => exact ⟨ih.1, uniq_mono hle ih.2⟩
  | subscribe hr hok ih => exact inv_subscribe hok ih
  | cancel hr hok ih => exact inv_cancel hok ih
  | autoRenew hr hok ih => exact inv_autoRenew hok ih
  | bulk hr hok hne ih => exact inv_bulk hok hne ih

/-- C3 witness: the state after one subscribe satisfies both halves of
the invariant. -/
theorem c3_witness : DurInv dbC3a ∧ UniqInv 0 dbC3a :=
  c3_guarded_invariants 0 dbC3a
    (ReachableGuarded.subscribe (ReachableGuarded.init 0)
      (show subscribeOp 0 1 "basic" none { nextId := 0, subs := [] } =
        .ok dbC3a from rfl))

end Bookstore
